import Mathlib

/-!
Verification of the booking-form validation engine in
`src/app/booking-form/booking-form.component.ts`.

Form control values are modelled as `List Char` (JavaScript strings), with
the empty list standing for the falsy empty string.  Dates are modelled
either as calendar triples (`SimpleDate`, for the birth-date validator,
which only inspects calendar fields) or as epoch instants (`Int`, for the
date-range validator, which compares `Date` objects).  Validation outcomes
are `Option VError`: `none` is success (the validator returned `null`) and
`some e` is the singleton error object `{ e: true }`.
-/

/-- The closed set of custom validation failure kinds used by the component. -/
inductive VError where
  | invalidPhone
  | underAge
  | notFutureDate
  | invalidDateRange
  | invalidName
  | invalidDniFormat
  | invalidDniLetter
  | emailTaken
deriving DecidableEq, Repr

/-- `\d` of the JavaScript regexes: an ASCII decimal digit. -/
def isDigitChar (c : Char) : Bool :=
  48 ≤ c.toNat && c.toNat ≤ 57

/-- An ASCII lowercase letter `a`-`z`. -/
def isLowerAscii (c : Char) : Bool :=
  97 ≤ c.toNat && c.toNat ≤ 122

/-- An ASCII uppercase letter `A`-`Z` (the `[A-Z]` class of the DNI regex). -/
def isUpperAscii (c : Char) : Bool :=
  65 ≤ c.toNat && c.toNat ≤ 90

/-- One character of JavaScript `toUpperCase`, restricted to the ASCII case
mapping: `a`-`z` goes to `A`-`Z`, every other character is kept. -/
def upperChar (c : Char) : Char :=
  if isLowerAscii c then Char.ofNat (c.toNat - 32) else c

/-- `value.toUpperCase()` on the modelled string. -/
def toUpper (s : List Char) : List Char :=
  s.map upperChar

/-- The regex `^\d{8}[A-Z]$` of `dniValidator` (line 63), as a structural
match: exactly nine characters, eight digits then one uppercase letter. -/
def standardDniRegexTest (s : List Char) : Bool :=
  match s with
  | [d1, d2, d3, d4, d5, d6, d7, d8, l] =>
      isDigitChar d1 && isDigitChar d2 && isDigitChar d3 && isDigitChar d4 &&
      isDigitChar d5 && isDigitChar d6 && isDigitChar d7 && isDigitChar d8 &&
      isUpperAscii l
  | _ => false

/-- Numeric value of a digit character. -/
def digitVal (c : Char) : Nat :=
  c.toNat - 48

/-- `parseInt(s, 10)` on a string of decimal digits. -/
def parseDigits (s : List Char) : Nat :=
  s.foldl (fun acc c => 10 * acc + digitVal c) 0

/-- The check-letter table `'TRWAGMYFPDXBNJZSQVHLCKE'` (line 71). -/
def checkLetters : List Char :=
  ['T', 'R', 'W', 'A', 'G', 'M', 'Y', 'F', 'P', 'D', 'X', 'B',
   'N', 'J', 'Z', 'S', 'Q', 'V', 'H', 'L', 'C', 'K', 'E']

/-- `dniValidator` (lines 57-78): empty values pass; otherwise uppercase,
check the `^\d{8}[A-Z]$` shape, then compare the supplied letter with
`letters.charAt(number % 23)`. -/
def dniValidator (value : List Char) : Option VError :=
  if value = [] then none
  else
    let dni := toUpper value
    if !standardDniRegexTest dni then some VError.invalidDniFormat
    else
      let number := parseDigits (dni.take 8)
      let letter := dni[8]?
      if checkLetters[number % 23]? = letter then none
      else some VError.invalidDniLetter

/-- Spec-side formulation of the "exactly 8 digits followed by one letter"
shape, written with length and position predicates rather than the regex
structure. -/
def dniShape (s : List Char) : Bool :=
  s.length = 9 && (s.take 8).all isDigitChar &&
    (match s[8]? with
     | some c => isUpperAscii c
     | none => false)

theorem dniShape_eq_regexTest (s : List Char) :
    dniShape s = standardDniRegexTest s := by
  match s with
  | [] => rfl
  | [a] => rfl
  | [a, b] => rfl
  | [a, b, c] => rfl
  | [a, b, c, d] => rfl
  | [a, b, c, d, e] => rfl
  | [a, b, c, d, e, f] => rfl
  | [a, b, c, d, e, f, g] => rfl
  | [a, b, c, d, e, f, g, h] => rfl
  | [a, b, c, d, e, f, g, h, i] =>
      simp [dniShape, standardDniRegexTest, List.all, Bool.and_assoc]
  | a :: b :: c :: d :: e :: f :: g :: h :: i :: j :: rest =>
      simp [dniShape, standardDniRegexTest]

/-- A calendar date as produced by `new Date(value)` for a date-input string:
only the calendar fields that `ageValidator` could inspect. -/
structure SimpleDate where
  year : Int
  month : Int
  day : Int
deriving DecidableEq, Repr

/-- `ageValidator` (lines 18-25): empty values pass; otherwise the age is
`today.getFullYear() - birthDate.getFullYear()` and the validator succeeds
exactly when that difference is at least 18.  `today` is the evaluation
instant, passed explicitly. -/
def ageValidator (today : SimpleDate) (value : Option SimpleDate) : Option VError :=
  match value with
  | none => none
  | some birthDate =>
      if today.year - birthDate.year ≥ 18 then none else some VError.underAge

/-- Modelled from the spec: the whole-years age "computed as a whole-years
difference that accounts for whether the current month/day has passed the
birth month/day (not a naive subtraction of the year numbers)". -/
def wholeYearsAge (today birth : SimpleDate) : Int :=
  if today.month < birth.month ∨ (today.month = birth.month ∧ today.day < birth.day)
  then today.year - birth.year - 1
  else today.year - birth.year

/-- `dateRangeValidator` (lines 38-45): the two values are the raw control
values, modelled as epoch instants (`new Date(...)` order agrees with the
numeric order), `none` standing for an absent/empty value.  When both are
present the whole form fails with `invalidDateRange` unless `r > d`. -/
def dateRangeValidator (departure returnDate : Option Int) : Option VError :=
  match departure, returnDate with
  | some d, some r => if r > d then none else some VError.invalidDateRange
  | _, _ => none

/-- The non-ASCII characters listed in the `nameValidator` character class
(line 52), in source order: the lowercase diacritics, the uppercase
diacritics, then `∂` and `ð`. -/
def nameExtraChars : List Char :=
  ['à', 'á', 'â', 'ä', 'ã', 'å', 'ą', 'č', 'ć', 'ę', 'è', 'é', 'ê', 'ë',
   'ė', 'į', 'ì', 'í', 'î', 'ï', 'ł', 'ń', 'ò', 'ó', 'ô', 'ö', 'õ', 'ø',
   'ù', 'ú', 'û', 'ü', 'ų', 'ū', 'ÿ', 'ý', 'ż', 'ź', 'ñ', 'ç', 'š', 'ž',
   'À', 'Á', 'Â', 'Ä', 'Ã', 'Å', 'Ą', 'Ć', 'Č', 'Ė', 'Ę', 'È', 'É', 'Ê',
   'Ë', 'Ì', 'Í', 'Î', 'Ï', 'Į', 'Ł', 'Ń', 'Ò', 'Ó', 'Ô', 'Ö', 'Õ', 'Ø',
   'Ù', 'Ú', 'Û', 'Ü', 'Ų', 'Ū', 'Ÿ', 'Ý', 'Ż', 'Ź', 'Ñ', 'ß', 'Ç', 'Œ',
   'Æ', 'Š', 'Ž', '∂', 'ð']

/-- The JavaScript regex class `\s`: space, the ASCII control whitespace,
and the Unicode space separators the regex engine recognizes. -/
def isJsWhitespace (c : Char) : Bool :=
  c.toNat = 32 || (9 ≤ c.toNat && c.toNat ≤ 13) || c.toNat = 160 ||
  c.toNat = 5760 || (8192 ≤ c.toNat && c.toNat ≤ 8202) || c.toNat = 8232 ||
  c.toNat = 8233 || c.toNat = 8239 || c.toNat = 8287 || c.toNat = 12288 ||
  c.toNat = 65279

/-- Membership in the `nameValidator` character class
`[a-zA-Z<diacritics>∂ð\s]` (line 52). -/
def nameCharOk (c : Char) : Bool :=
  isLowerAscii c || isUpperAscii c || c ∈ nameExtraChars || isJsWhitespace c

/-- `nameValidator` (lines 49-54): empty values pass; otherwise the regex
`^[...]+$` holds of a non-empty string exactly when every character is in
the class. -/
def nameValidator (value : List Char) : Option VError :=
  if value = [] then none
  else if value.all nameCharOk then none else some VError.invalidName

/-- Modelled from the spec: a "letter (including the extended Latin
diacritic set used in Iberian/European names)".  These are the ASCII
letters together with the genuine Unicode letters of the validator's
class; the character `∂` (U+2202, Unicode category Sm, the partial
derivative sign) is a mathematical symbol, not a letter, so it is not
included. -/
def specIsNameLetter (c : Char) : Bool :=
  isLowerAscii c || isUpperAscii c || (c ∈ nameExtraChars && c ≠ '∂')

/-- ASCII punctuation and symbol characters: the printable ASCII range
minus letters, digits and space. -/
def isAsciiPunct (c : Char) : Bool :=
  (33 ≤ c.toNat && c.toNat ≤ 47) || (58 ≤ c.toNat && c.toNat ≤ 64) ||
  (91 ≤ c.toNat && c.toNat ≤ 96) || (123 ≤ c.toNat && c.toNat ≤ 126)

/-- The base-price table of `calculatePrice` (lines 162-166); `none` is an
absent key, so that `basePrices[travelClass] || 0` is `(basePrices tc).getD 0`. -/
def basePrices (travelClass : List Char) : Option Int :=
  if travelClass = ['t', 'o', 'u', 'r', 'i', 's', 't'] then some 100
  else if travelClass = ['b', 'u', 's', 'i', 'n', 'e', 's', 's'] then some 250
  else if travelClass = ['f', 'i', 'r', 's', 't', 'C', 'l', 'a', 's', 's'] then some 500
  else none

/-- `calculatePrice` (lines 161-177) as a pure function of the two control
values it reads.  `none` models an absent control value; the JavaScript
truthiness test `travelClass && passengers` also treats the empty string
and the number 0 as false. -/
def calculatePrice (travelClass : Option (List Char)) (passengers : Option Int) : Int :=
  match travelClass, passengers with
  | some tc, some p =>
      if tc ≠ [] ∧ p ≠ 0 then (basePrices tc).getD 0 * p else 0
  | _, _ => 0

/-- One additional-passenger record of the `additionalPassengers` form
array: the three sub-controls of the group pushed at lines 187-191. -/
structure PassengerRec where
  name : List Char
  age : List Char
  relation : List Char
deriving DecidableEq, Repr

/-- The group pushed for each new passenger: all three controls empty. -/
def emptyPassengerRec : PassengerRec :=
  { name := [], age := [], relation := [] }

/-- The start position of `splice(idx, 1)` on an array of length `len`:
negative indices count from the end and clamp at 0, positive ones clamp at
`len`.  (`FormArray.removeAt` delegates to `splice` on its controls.) -/
def spliceStart (idx : Int) (len : Nat) : Nat :=
  if idx < 0 then (len + idx).toNat else min idx.toNat len

/-- `FormArray.removeAt(idx)`: remove the element at the splice position,
a no-op when the position falls past the end. -/
def removeAtList (l : List PassengerRec) (idx : Int) : List PassengerRec :=
  let s := spliceStart idx l.length
  l.take s ++ l.drop (s + 1)

/-- The shrinking loop of `adjustPassengers` (lines 193-197):
`for (let i = currentCount; i > needed; i--) removeAt(i - 1)`, unrolled on
the number of iterations left (the counter `i` decrements every iteration,
so the loop runs exactly `max (i₀ - needed) 0` times). -/
def removeLoopAux : Nat → List PassengerRec → Int → List PassengerRec
  | 0, l, _ => l
  | n + 1, l, i => removeLoopAux n (removeAtList l (i - 1)) (i - 1)

/-- `adjustPassengers(num)` (lines 180-198) as a function on the modelled
form-array contents: grow by pushing empty groups, shrink with the
`removeAt` loop. -/
def adjustPassengers (num : Int) (l : List PassengerRec) : List PassengerRec :=
  let currentCount : Int := l.length
  let needed := num - 1
  if needed > currentCount then
    l ++ List.replicate (needed - currentCount).toNat emptyPassengerRec
  else if needed < currentCount then
    removeLoopAux (currentCount - needed).toNat l currentCount
  else l

/-- The sequence of `removeAt` calls the shrinking loop performs, each
paired with the length of the form array at the moment of the call. -/
def removeTraceAux : Nat → List PassengerRec → Int → List (Int × Nat)
  | 0, _, _ => []
  | n + 1, l, i => (i - 1, l.length) :: removeTraceAux n (removeAtList l (i - 1)) (i - 1)

/-- All `removeAt` calls issued by `adjustPassengers num` on a form array
holding `l`: the grow and no-change branches issue none. -/
def adjustRemoveTrace (num : Int) (l : List PassengerRec) : List (Int × Nat) :=
  let currentCount : Int := l.length
  let needed := num - 1
  if needed < currentCount then
    removeTraceAux (currentCount - needed).toNat l currentCount
  else []

/-!  Helper lemmas about the form-array synchronizer. -/

theorem removeAtList_pred (l : List PassengerRec) (h : l ≠ []) :
    removeAtList l ((l.length : Int) - 1) = l.take (l.length - 1) := by
  have hlen : 1 ≤ l.length := List.length_pos.mpr h
  simp only [removeAtList, spliceStart]
  have h1 : ¬ ((l.length : Int) - 1 < 0) := by omega
  rw [if_neg h1]
  have h2 : ((l.length : Int) - 1).toNat = l.length - 1 := by omega
  rw [h2]
  have h3 : min (l.length - 1) l.length = l.length - 1 := by omega
  rw [h3]
  have h4 : l.length - 1 + 1 = l.length := by omega
  rw [h4]
  simp

theorem length_removeAtList_pred (l : List PassengerRec) (h : l ≠ []) :
    (removeAtList l ((l.length : Int) - 1)).length = l.length - 1 := by
  rw [removeAtList_pred l h, List.length_take]
  omega

theorem removeLoop_take (n : Nat) :
    ∀ l : List PassengerRec, n ≤ l.length →
      removeLoopAux n l (l.length : Int) = l.take (l.length - n) := by
  induction n with
  | zero =>
      intro l _
      simp [removeLoopAux]
  | succ n ih =>
      intro l h
      have hne : l ≠ [] := by
        intro hc
        subst hc
        simp at h
      simp only [removeLoopAux]
      rw [removeAtList_pred l hne]
      have hlen : (l.take (l.length - 1)).length = l.length - 1 := by
        rw [List.length_take]; omega
      have hi : (l.length : Int) - 1 = ((l.take (l.length - 1)).length : Int) := by
        rw [hlen]; omega
      rw [hi, ih _ (by rw [hlen]; omega)]
      rw [hlen, List.take_take]
      congr 1
      omega

theorem adjustPassengers_eq (num : Int) (l : List PassengerRec) (h : 1 ≤ num) :
    adjustPassengers num l =
      l.take (num - 1).toNat ++
        List.replicate ((num - 1).toNat - l.length) emptyPassengerRec := by
  simp only [adjustPassengers]
  by_cases h1 : (num - 1 : Int) > (l.length : Int)
  · rw [if_pos h1]
    have hk : l.length ≤ (num - 1).toNat := by omega
    rw [List.take_of_length_le hk]
    congr 2
    omega
  · rw [if_neg h1]
    by_cases h2 : (num - 1 : Int) < (l.length : Int)
    · rw [if_pos h2]
      have hn : ((l.length : Int) - (num - 1)).toNat ≤ l.length := by omega
      rw [removeLoop_take _ l hn]
      have he : l.length - ((l.length : Int) - (num - 1)).toNat = (num - 1).toNat := by
        omega
      have hrep : (num - 1).toNat - l.length = 0 := by omega
      rw [he, hrep]
      simp
    · rw [if_neg h2]
      have hc : (num - 1).toNat = l.length := by omega
      have hrep : (num - 1).toNat - l.length = 0 := by omega
      rw [hrep, hc, List.take_length]
      simp

theorem removeTrace_mem (n : Nat) :
    ∀ l : List PassengerRec, n ≤ l.length →
      ∀ p ∈ removeTraceAux n l (l.length : Int), p.1 = (p.2 : Int) - 1 ∧ 1 ≤ p.2 := by
  induction n with
  | zero =>
      intro l _ p hp
      simp [removeTraceAux] at hp
  | succ n ih =>
      intro l h p hp
      have hne : l ≠ [] := by
        intro hc
        subst hc
        simp at h
      simp only [removeTraceAux, List.mem_cons] at hp
      rcases hp with hp | hp
      · subst hp
        refine ⟨rfl, by omega⟩
      · rw [removeAtList_pred l hne] at hp
        have hlen : (l.take (l.length - 1)).length = l.length - 1 := by
          rw [List.length_take]; omega
        have hi : (l.length : Int) - 1 = ((l.take (l.length - 1)).length : Int) := by
          rw [hlen]; omega
        rw [hi] at hp
        exact ih _ (by rw [hlen]; omega) p hp

theorem removeTrace_map_fst (n : Nat) :
    ∀ (l : List PassengerRec) (i : Int),
      (removeTraceAux n l i).map Prod.fst =
        (List.range n).map (fun (k : Nat) => i - 1 - (k : Int)) := by
  induction n with
  | zero =>
      intro l i
      simp [removeTraceAux]
  | succ n ih =>
      intro l i
      simp only [removeTraceAux, List.map_cons, List.range_succ_eq_map, List.map_map]
      rw [ih]
      simp only [Nat.cast_zero, sub_zero]
      congr 1
      congr 1
      funext k
      simp only [Function.comp_apply, Nat.succ_eq_add_one]
      push_cast
      ring

theorem neg_one_in_trace (num : Int) (l : List PassengerRec) (h : num ≤ 0) :
    (-1 : Int) ∈ (adjustRemoveTrace num l).map Prod.fst := by
  simp only [adjustRemoveTrace]
  have hlt : (num - 1 : Int) < (l.length : Int) := by omega
  rw [if_pos hlt, removeTrace_map_fst, List.mem_map]
  refine ⟨l.length, ?_, ?_⟩
  · rw [List.mem_range]
    omega
  · omega

/-!  Helper lemmas about the name character class. -/

theorem nameExtra_ge_192 : ∀ c ∈ nameExtraChars, 192 ≤ c.toNat := by decide

theorem nameCharOk_false_of_digit_or_punct (c : Char)
    (h : isDigitChar c = true ∨ isAsciiPunct c = true) :
    nameCharOk c = false := by
  rw [Bool.eq_false_iff]
  intro htrue
  simp only [nameCharOk, isLowerAscii, isUpperAscii, isJsWhitespace, Bool.or_eq_true,
    Bool.and_eq_true, decide_eq_true_eq] at htrue
  simp only [isDigitChar, isAsciiPunct, Bool.or_eq_true, Bool.and_eq_true,
    decide_eq_true_eq] at h
  rcases htrue with ((hl | hu) | hm) | hw
  · rcases h with h | (((h | h) | h) | h) <;> omega
  · rcases h with h | (((h | h) | h) | h) <;> omega
  · have := nameExtra_ge_192 c hm
    rcases h with h | (((h | h) | h) | h) <;> omega
  · rcases hw with ((((((((((w | w) | w) | w) | w) | w) | w) | w) | w) | w) | w) <;>
      rcases h with h | (((h | h) | h) | h) <;> omega

/-- C1: the claim says the birth-date validator succeeds exactly when the
whole-years age (month/day aware) is at least 18.  The code disagrees: it
subtracts the year numbers only.  Evaluated on 2026-10-11 for a birth date
of 2008-12-31, the validator succeeds although the whole-years age is 17,
so a 17-year-old passes the minimum-age-18 check. -/
theorem ageValidator_naive_bug_C1 :
    ageValidator ⟨2026, 10, 11⟩ (some ⟨2008, 12, 31⟩) = none ∧
    wholeYearsAge ⟨2026, 10, 11⟩ ⟨2008, 12, 31⟩ = 17 := by
  constructor
  · rfl
  · rfl

/-- C2: the claim says a leading X, Y or Z is substituted by 0, 1 or 2
before the shape check, so "X1234567L" is evaluated exactly like
"01234567L".  The code has no such substitution: "X1234567L" fails the
`^\d{8}[A-Z]$` shape check with `invalidDniFormat`, while "01234567L"
passes the shape check and its checksum (1234567 mod 23 = 19, letter L). -/
theorem dniValidator_nie_bug_C2 :
    dniValidator ['X', '1', '2', '3', '4', '5', '6', '7', 'L'] =
      some VError.invalidDniFormat ∧
    dniValidator ['0', '1', '2', '3', '4', '5', '6', '7', 'L'] = none := by
  constructor
  · rfl
  · rfl

/-- C4: after `adjustPassengers num` for any `num` in [1, 10] the
additional-passenger collection holds exactly `num - 1` records, whatever
its previous contents were. -/
theorem adjustPassengers_count_C4 (num : Int) (l : List PassengerRec)
    (h1 : 1 ≤ num) (h2 : num ≤ 10) :
    ((adjustPassengers num l).length : Int) = num - 1 := by
  rw [adjustPassengers_eq num l h1, List.length_append, List.length_take,
    List.length_replicate]
  omega

/-- Witness for C4 at `num = 4` on a one-record array. -/
theorem adjustPassengers_count_C4_witness :
    ((adjustPassengers 4 [emptyPassengerRec]).length : Int) = 3 :=
  adjustPassengers_count_C4 4 [emptyPassengerRec] (by decide) (by decide)

/-- C5: the synchronizer only appends empty records at the end and only
removes from the end: the result is always the prefix of the old
collection of length `num - 1`, followed by empty records when the old
collection was shorter; in particular every surviving record keeps its
position and its contents. -/
theorem adjustPassengers_frame_C5 (num : Int) (l : List PassengerRec)
    (h : 1 ≤ num) :
    adjustPassengers num l =
      l.take (num - 1).toNat ++
        List.replicate ((num - 1).toNat - l.length) emptyPassengerRec ∧
    ∀ i : Nat, i < (num - 1).toNat → i < l.length →
      (adjustPassengers num l)[i]? = l[i]? := by
  refine ⟨adjustPassengers_eq num l h, ?_⟩
  intro i hi hil
  rw [adjustPassengers_eq num l h, List.getElem?_append, List.length_take,
    if_pos (by omega), List.getElem?_take, if_pos hi]

/-- Witness for C5 at `num = 2` on a three-record array: the first record
survives unchanged, the rest are removed. -/
theorem adjustPassengers_frame_C5_witness :
    adjustPassengers 2
        [{ name := ['a'], age := ['3'], relation := ['x'] },
         emptyPassengerRec, emptyPassengerRec] =
      [{ name := ['a'], age := ['3'], relation := ['x'] }] ∧
    (adjustPassengers 2
        [{ name := ['a'], age := ['3'], relation := ['x'] },
         emptyPassengerRec, emptyPassengerRec])[0]? =
      some { name := ['a'], age := ['3'], relation := ['x'] } := by
  have h := adjustPassengers_frame_C5 2
    [{ name := ['a'], age := ['3'], relation := ['x'] },
     emptyPassengerRec, emptyPassengerRec] (by decide)
  exact ⟨h.1.trans (by decide), (h.2 0 (by decide) (by decide)).trans (by decide)⟩

/-- C3: for every non-empty national-ID value, the validator uppercases it,
returns `invalidDniFormat` when the result is not 8 digits plus a letter,
and otherwise succeeds exactly when the supplied letter is the character at
index (number mod 23) of "TRWAGMYFPDXBNJZSQVHLCKE", failing with
`invalidDniLetter` otherwise; "00000000T" succeeds and "00000000R" fails. -/
theorem dniValidator_checksum_C3 (v : List Char) (hv : v ≠ []) :
    (dniShape (toUpper v) = false →
      dniValidator v = some VError.invalidDniFormat) ∧
    (dniShape (toUpper v) = true →
      (dniValidator v = none ↔
        (toUpper v)[8]? = checkLetters[parseDigits ((toUpper v).take 8) % 23]?) ∧
      ((toUpper v)[8]? ≠ checkLetters[parseDigits ((toUpper v).take 8) % 23]? →
        dniValidator v = some VError.invalidDniLetter)) ∧
    dniValidator ['0', '0', '0', '0', '0', '0', '0', '0', 'T'] = none ∧
    dniValidator ['0', '0', '0', '0', '0', '0', '0', '0', 'R'] =
      some VError.invalidDniLetter := by
  refine ⟨?_, ?_, by rfl, by rfl⟩
  · intro hshape
    rw [dniShape_eq_regexTest] at hshape
    simp only [dniValidator, if_neg hv, hshape, Bool.not_false, if_pos]
  · intro hshape
    rw [dniShape_eq_regexTest] at hshape
    simp only [dniValidator, if_neg hv, hshape, Bool.not_true, Bool.false_eq_true,
      if_false]
    constructor
    · constructor
      · intro hnone
        by_cases hc :
            checkLetters[parseDigits ((toUpper v).take 8) % 23]? = (toUpper v)[8]?
        · exact hc.symm
        · rw [if_neg hc] at hnone
          exact absurd hnone (by simp)
      · intro hc
        rw [if_pos hc.symm]
    · intro hne
      rw [if_neg fun hc => hne hc.symm]

/-- Witness for C3: "12345678Z" passes the shape check and its checksum
(12345678 mod 23 = 14, letter Z), so the validator succeeds on it. -/
theorem dniValidator_checksum_C3_witness :
    dniValidator ['1', '2', '3', '4', '5', '6', '7', '8', 'Z'] = none := by
  have h := dniValidator_checksum_C3 ['1', '2', '3', '4', '5', '6', '7', '8', 'Z']
    (by decide)
  exact (h.2.1 (by decide)).1.mpr (by decide)

/-- C6: the derived total price is `baseRate[travelClass] * passengers`
with rates tourist 100, business 250, firstClass 500; an unknown travel
class or a missing passenger count yields 0. -/
theorem calculatePrice_spec_C6 :
    (∀ p : Int,
      calculatePrice (some ['t', 'o', 'u', 'r', 'i', 's', 't']) (some p) = 100 * p ∧
      calculatePrice (some ['b', 'u', 's', 'i', 'n', 'e', 's', 's']) (some p) = 250 * p ∧
      calculatePrice (some ['f', 'i', 'r', 's', 't', 'C', 'l', 'a', 's', 's']) (some p) =
        500 * p) ∧
    (∀ tc : Option (List Char), calculatePrice tc none = 0) ∧
    (∀ (tc : List Char) (p : Option Int), basePrices tc = none →
      calculatePrice (some tc) p = 0) := by
  refine ⟨?_, ?_, ?_⟩
  · intro p
    by_cases hp : p = 0
    · subst hp
      refine ⟨?_, ?_, ?_⟩ <;> simp [calculatePrice]
    · refine ⟨?_, ?_, ?_⟩ <;>
        · simp only [calculatePrice]
          rw [if_pos ⟨by simp, hp⟩]
          rfl
  · intro tc
    cases tc <;> rfl
  · intro tc p hb
    cases p with
    | none => rfl
    | some p =>
        simp only [calculatePrice, hb]
        split
        · simp
        · rfl

/-- Witness for C6: the unknown class "eco" yields price 0, and the known
class tourist with 4 passengers yields 400. -/
theorem calculatePrice_spec_C6_witness :
    calculatePrice (some ['e', 'c', 'o']) (some 3) = 0 ∧
    calculatePrice (some ['t', 'o', 'u', 'r', 'i', 's', 't']) (some 4) = 400 :=
  ⟨calculatePrice_spec_C6.2.2 ['e', 'c', 'o'] (some 3) (by decide),
   (calculatePrice_spec_C6.1 4).1.trans (by decide)⟩

/-- C7: with both dates present the whole-form validator reports
`invalidDateRange` exactly when the return date is not strictly later than
the departure date (equal dates fail); with either date absent it reports
nothing. -/
theorem dateRangeValidator_spec_C7 :
    (∀ d r : Int,
      (dateRangeValidator (some d) (some r) = some VError.invalidDateRange ↔ r ≤ d) ∧
      (dateRangeValidator (some d) (some r) = none ↔ d < r)) ∧
    (∀ d : Int, dateRangeValidator (some d) (some d) = some VError.invalidDateRange) ∧
    (∀ x : Option Int, dateRangeValidator none x = none ∧ dateRangeValidator x none = none) := by
  refine ⟨?_, ?_, ?_⟩
  · intro d r
    by_cases h : d < r
    · constructor <;> simp [dateRangeValidator, h]
    · constructor <;> simp [dateRangeValidator, h]
      omega
  · intro d
    simp [dateRangeValidator]
  · intro x
    cases x <;> exact ⟨rfl, rfl⟩

/-- C8 counterexample: the claim says the name validator succeeds exactly
on values made solely of letters and whitespace, and that every value
containing a symbol fails.  The one-character value "∂" refutes it: the
validator succeeds on it, yet `∂` is neither a letter (it is the
mathematical partial-derivative symbol, Unicode category Sm) nor
whitespace. -/
theorem nameValidator_symbol_counterexample_C8 :
    ¬ (nameValidator ['∂'] = none ↔
        (['∂'].all fun c => specIsNameLetter c || isJsWhitespace c) = true) := by
  decide

/-- C8 (amended): for every non-empty value, the name validator succeeds
exactly when every character lies in its fixed class (ASCII letters, the
listed diacritic Latin letters, `ð`, whitespace, and also the math symbol
`∂`); in particular every value containing a digit or an ASCII punctuation
or symbol character fails with `invalidName`. -/
theorem nameValidator_class_C8 (v : List Char) (hv : v ≠ []) :
    (nameValidator v = none ↔ v.all nameCharOk = true) ∧
    ((∃ c ∈ v, isDigitChar c = true ∨ isAsciiPunct c = true) →
      nameValidator v = some VError.invalidName) := by
  constructor
  · simp only [nameValidator, if_neg hv]
    cases hall : v.all nameCharOk <;> simp [hall]
  · intro hex
    rcases hex with ⟨c, hc, hdp⟩
    have hfalse : nameCharOk c = false := nameCharOk_false_of_digit_or_punct c hdp
    have hall : v.all nameCharOk = false := by
      rw [Bool.eq_false_iff]
      intro hall
      rw [List.all_eq_true] at hall
      have := hall c hc
      rw [hfalse] at this
      cases this
    simp only [nameValidator, if_neg hv, hall, Bool.false_eq_true, if_false]

/-- Witness for C8: "Ana1" contains the digit 1 and fails with
`invalidName`. -/
theorem nameValidator_class_C8_witness :
    nameValidator ['A', 'n', 'a', '1'] = some VError.invalidName :=
  (nameValidator_class_C8 ['A', 'n', 'a', '1'] (by decide)).2
    ⟨'1', by decide, Or.inl (by decide)⟩

/-- C10: when `num ≥ 1`, every `removeAt` call of the shrinking loop gets
an index that is in bounds for the collection at the moment of the call;
and the precondition is necessary: any call with `num ≤ 0` makes the loop
invoke `removeAt` with index -1. -/
theorem adjustPassengers_removeAt_bounds_C10 :
    (∀ (num : Int) (l : List PassengerRec), 1 ≤ num →
      ∀ p ∈ adjustRemoveTrace num l, 0 ≤ p.1 ∧ p.1 < (p.2 : Int)) ∧
    (∀ (num : Int) (l : List PassengerRec), num ≤ 0 →
      (-1 : Int) ∈ (adjustRemoveTrace num l).map Prod.fst) := by
  constructor
  · intro num l h p hp
    simp only [adjustRemoveTrace] at hp
    split at hp
    · rename_i hlt
      have hn : ((l.length : Int) - (num - 1)).toNat ≤ l.length := by omega
      have hb := removeTrace_mem _ l hn p hp
      omega
    · simp at hp
  · intro num l h
    exact neg_one_in_trace num l h

/-- Witness for C10: shrinking a two-record array to `num = 1` issues the
in-bounds calls `removeAt 1` then `removeAt 0`; calling with `num = 0` on
a one-record array issues `removeAt (-1)`. -/
theorem adjustPassengers_removeAt_bounds_C10_witness :
    (0 ≤ (1 : Int) ∧ (1 : Int) < ((2 : Nat) : Int)) ∧
    (-1 : Int) ∈ (adjustRemoveTrace 0 [emptyPassengerRec]).map Prod.fst :=
  ⟨adjustPassengers_removeAt_bounds_C10.1 1 [emptyPassengerRec, emptyPassengerRec]
      (by decide) ((1 : Int), (2 : Nat)) (by decide),
   adjustPassengers_removeAt_bounds_C10.2 0 [emptyPassengerRec] (by decide)⟩
